import Mathlib

/-!
Shallow embedding of `bevy_fixed_viewport` (`src/lib.rs`).

The crate keeps a camera's viewport rectangle fitted to a fixed aspect
ratio inside its window.  The core is the `sync_viewport` system: it
consumes `SyncEvent`s (camera changed / window changed), resolves the
camera-window association for each event, and for every resolved pair
recomputes the viewport rectangle and writes it into the camera.

The source computes in `f32` and casts to `u32` at the end; the
embedding uses exact rationals (`ℚ`) for the arithmetic and models the
Rust `f32 as u32` cast as a saturating floor (`f32toU32`): negative
values clamp to 0 (via `Int.toNat`), values at or above `2 ^ 32` clamp
to `2 ^ 32 - 1`.  Note `ℚ` division by zero yields 0 where IEEE yields
an infinity or NaN; all theorems below either assume positive
dimensions or use inputs on which the two conventions agree.
-/

/-- A window reference on a camera's render target (`bevy` `WindowRef`):
either the primary window or a specific window entity. -/
inductive WindowRef where
  | primary
  | entity (id : ℕ)
deriving DecidableEq

/-- A camera's render target (`bevy` `RenderTarget`).  Targets other
than a window (images, texture views) are collapsed into `other`; the
source skips them (`_ => continue` / `_ => None`). -/
inductive RenderTarget where
  | window (ref : WindowRef)
  | other
deriving DecidableEq

/-- The computed viewport rectangle (`bevy` `Viewport`): origin and size
in physical pixels. -/
structure Viewport where
  physical_position : ℕ × ℕ
  physical_size : ℕ × ℕ
deriving DecidableEq

/-- The camera component: its render target and its (optional) viewport
rectangle, the only field this crate ever writes. -/
structure Camera where
  target : RenderTarget
  viewport : Option Viewport
deriving DecidableEq

/-- The `FixedViewport` component: the desired aspect ratio
(width / height).  The source field is `aspect_ratio`; it is named
`aspect` here. -/
structure FixedViewport where
  aspect : ℚ
deriving DecidableEq

/-- The window component data the crate reads: physical size in pixels
(`u32` in the source, hence bounded by `2 ^ 32 - 1` wherever theorems
need it). -/
structure Window where
  physical_width : ℕ
  physical_height : ℕ
deriving DecidableEq

/-- The `SyncEvent` enum of the source: the camera's fixed viewport
changed, or the window was resized / its scale factor changed. -/
inductive SyncEvent where
  | camera (id : ℕ)
  | window (id : ℕ)
deriving DecidableEq

/-- A camera entity as seen by `camera_query`: entity id plus the
`FixedViewport` and `Camera` components. -/
structure CameraEntity where
  id : ℕ
  fixed_viewport : FixedViewport
  camera : Camera
deriving DecidableEq

/-- A window entity as seen by `window_query`: entity id, the `Window`
component, and whether the `PrimaryWindow` marker component is present. -/
structure WindowEntity where
  id : ℕ
  window : Window
  primary : Bool
deriving DecidableEq

/-- The entity state `sync_viewport` runs against. -/
structure World where
  cameras : List CameraEntity
  windows : List WindowEntity
deriving DecidableEq

/-- Rust `f32 as u32`: truncation toward zero with saturation, so
negative values give 0 and values at or above `2 ^ 32` give
`2 ^ 32 - 1`.  On the nonnegative in-range values this crate produces,
it is exactly `Int.toNat ∘ Int.floor`. -/
def f32toU32 (q : ℚ) : ℕ := min (Int.toNat ⌊q⌋) (2 ^ 32 - 1)

/-- The fitting computation of `sync_viewport` (lines 128-152 of
`src/lib.rs`): starting from `viewport_width = window_width`,
`viewport_height = window_height`, `viewport_x = viewport_y = 0`, the
branch on `window_ratio > aspect_ratio` shrinks one dimension and
centers on that axis, and the results are cast to `u32`. -/
def fitViewport (win : Window) (a : ℚ) : Viewport :=
  let ww : ℚ := win.physical_width
  let wh : ℚ := win.physical_height
  if ww / wh > a then
    { physical_position := (f32toU32 (ww / 2 - wh * a / 2), f32toU32 0)
      physical_size := (f32toU32 (wh * a), f32toU32 wh) }
  else
    { physical_position := (f32toU32 0, f32toU32 (wh / 2 - ww / a / 2))
      physical_size := (f32toU32 ww, f32toU32 (ww / a)) }

/-- Write the fitted viewport into a camera entity
(`camera.viewport = Some(Viewport { .. })` in the source); every other
field is kept. -/
def writeViewport (ce : CameraEntity) (win : Window) : CameraEntity :=
  { ce with
    camera := { ce.camera with
      viewport := some (fitViewport win ce.fixed_viewport.aspect) } }

/-- Itertools `exactly_one` on a list: `some x` iff the list is `[x]`. -/
def exactlyOne {α : Type} : List α → Option α
  | [x] => some x
  | _ => none

/-- The per-camera filter of the window-event branch (lines 110-122):
a camera matches the changed window iff its target is that window
directly, or its target is the primary window and the changed window
carries the `PrimaryWindow` marker. -/
def cameraMatchesWindow (primary : Bool) (wid : ℕ) (cam : Camera) : Bool :=
  match cam.target with
  | RenderTarget.window WindowRef.primary => primary
  | RenderTarget.window (WindowRef.entity e) => e == wid
  | RenderTarget.other => false

/-- Resolve a camera's render target to a window entity (the camera-event
branch, lines 75-92): a primary reference needs exactly one
primary-flagged window; an entity reference is looked up by id; other
targets resolve to nothing. -/
def resolveCameraTarget (world : World) (cam : Camera) : Option WindowEntity :=
  match cam.target with
  | RenderTarget.window WindowRef.primary =>
      exactlyOne (world.windows.filter (fun we => we.primary))
  | RenderTarget.window (WindowRef.entity e) =>
      world.windows.find? (fun we => we.id == e)
  | RenderTarget.other => none

/-- The per-camera action of a camera event once its window has been
resolved: the event's camera gets the fitted viewport written, every
other camera is untouched. -/
def cameraPass (we : WindowEntity) (cid : ℕ) (c : CameraEntity) : CameraEntity :=
  if c.id == cid then writeViewport c we.window else c

/-- The per-camera action of a window event: every camera whose target
matches the changed window gets the fitted viewport written, the rest
are untouched. -/
def windowPass (we : WindowEntity) (wid : ℕ) (c : CameraEntity) : CameraEntity :=
  if cameraMatchesWindow we.primary wid c.camera
  then writeViewport c we.window else c

/-- Process one `SyncEvent` (one iteration of the `for event in
sync_events.read()` loop): resolve the pair(s), then run the fitting
pass over them.  Failed lookups and failed resolution `continue`,
leaving the world unchanged. -/
def processEvent (world : World) (ev : SyncEvent) : World :=
  match ev with
  | SyncEvent.camera cid =>
    match world.cameras.find? (fun c => c.id == cid) with
    | none => world
    | some ce =>
      match resolveCameraTarget world ce.camera with
      | none => world
      | some we =>
        { world with cameras := world.cameras.map (cameraPass we cid) }
  | SyncEvent.window wid =>
    match world.windows.find? (fun we => we.id == wid) with
    | none => world
    | some we =>
      { world with cameras := world.cameras.map (windowPass we wid) }

/-- The `sync_viewport` system: consume this tick's events in emission
order. -/
def sync_viewport (world : World) (events : List SyncEvent) : World :=
  events.foldl processEvent world

/-- The set of (View, Surface) recomputation pairs a `SyncEvent.window`
signal resolves to, given as the list of selected camera entities
(paired with the looked-up window): empty when the window is missing. -/
def resolveWindowEvent (world : World) (wid : ℕ) : List CameraEntity :=
  match world.windows.find? (fun we => we.id == wid) with
  | none => []
  | some we =>
    world.cameras.filter (fun c => cameraMatchesWindow we.primary wid c.camera)

/-- The ids of the cameras an event resolves into a pair (and hence
writes): used to state that unresolved cameras are untouched. -/
def pairedIds (world : World) : SyncEvent → List ℕ
  | SyncEvent.camera cid =>
    match world.cameras.find? (fun c => c.id == cid) with
    | none => []
    | some ce =>
      match resolveCameraTarget world ce.camera with
      | none => []
      | some _ => [cid]
  | SyncEvent.window wid =>
    (resolveWindowEvent world wid).map (fun c => c.id)

/-- The relation between an initial and a final camera entity after the
sync pass: the id, the fixed viewport and the render target are
untouched, and the viewport is either untouched or overwritten with
`some` fitted rectangle computed from one of the world's windows. -/
def viewportOnly (ws : List WindowEntity) (c c2 : CameraEntity) : Prop :=
  c2.id = c.id ∧ c2.fixed_viewport = c.fixed_viewport ∧
  c2.camera.target = c.camera.target ∧
  (c2.camera.viewport = c.camera.viewport ∨
    ∃ we ∈ ws,
      c2.camera.viewport = some (fitViewport we.window c.fixed_viewport.aspect))

/-- Concrete state for C2: one window of physical size 0 x 100 (zero
width, as after minimizing) and one camera targeting it directly with
aspect ratio 1 and no viewport yet. -/
def worldC2 : World :=
  { cameras := [⟨10, ⟨1⟩, ⟨RenderTarget.window (WindowRef.entity 1), none⟩⟩]
    windows := [⟨1, ⟨0, 100⟩, true⟩] }

/-- Concrete state for C3: two windows both flagged primary and one
camera targeting the default/primary window, no viewport yet. -/
def worldC3 : World :=
  { cameras := [⟨10, ⟨1⟩, ⟨RenderTarget.window WindowRef.primary, none⟩⟩]
    windows := [⟨1, ⟨800, 600⟩, true⟩, ⟨2, ⟨800, 600⟩, true⟩] }

/-- Concrete state for C5: window 1 (primary) is referenced by cameras
10 and 11 directly and by camera 12 via the default/primary reference;
camera 13 targets window 2 and camera 14 a non-window target. -/
def worldC5 : World :=
  { cameras :=
      [⟨10, ⟨1⟩, ⟨RenderTarget.window (WindowRef.entity 1), none⟩⟩,
       ⟨11, ⟨2⟩, ⟨RenderTarget.window (WindowRef.entity 1), none⟩⟩,
       ⟨12, ⟨1⟩, ⟨RenderTarget.window WindowRef.primary, none⟩⟩,
       ⟨13, ⟨1⟩, ⟨RenderTarget.window (WindowRef.entity 2), none⟩⟩,
       ⟨14, ⟨1⟩, ⟨RenderTarget.other, none⟩⟩]
    windows := [⟨1, ⟨800, 600⟩, true⟩, ⟨2, ⟨100, 100⟩, false⟩] }

/-- What one event does to one camera: only the viewport may change (to
`some` fitted rectangle), and a camera not paired by the event is
untouched. -/
def stepCameraRel (world : World) (ev : SyncEvent) (c c2 : CameraEntity) :
    Prop :=
  viewportOnly world.windows c c2 ∧ (c.id ∉ pairedIds world ev → c2 = c)

/-- What a whole tick does to one camera: only the viewport may change
(to `some` fitted rectangle), and a camera paired by none of the tick's
events is untouched. -/
def syncCameraRel (world : World) (evs : List SyncEvent) (c c2 : CameraEntity) :
    Prop :=
  viewportOnly world.windows c c2 ∧
  ((∀ ev ∈ evs, c.id ∉ pairedIds world ev) → c2 = c)

/-- The pre-cast x offset the source computes (`viewport_x` just before
the `as u32` casts). -/
def exactFitX (w h : ℕ) (a : ℚ) : ℚ :=
  if (w : ℚ) / h > a then (w : ℚ) / 2 - (h : ℚ) * a / 2 else 0

/-- The pre-cast y offset the source computes. -/
def exactFitY (w h : ℕ) (a : ℚ) : ℚ :=
  if (w : ℚ) / h > a then 0 else (h : ℚ) / 2 - (w : ℚ) / a / 2

/-- The pre-cast viewport width the source computes. -/
def exactFitW (w h : ℕ) (a : ℚ) : ℚ :=
  if (w : ℚ) / h > a then (h : ℚ) * a else (w : ℚ)

/-- The pre-cast viewport height the source computes. -/
def exactFitH (w h : ℕ) (a : ℚ) : ℚ :=
  if (w : ℚ) / h > a then (h : ℚ) else (w : ℚ) / a

theorem f32toU32_zero : f32toU32 0 = 0 := rfl

theorem f32toU32_eq_toNat_floor (q : ℚ) (hq : q < 2 ^ 32) :
    f32toU32 q = Int.toNat ⌊q⌋ := by
  have hz : ⌊q⌋ < (2 ^ 32 : ℤ) := by
    rw [Int.floor_lt]
    exact_mod_cast hq
  have : Int.toNat ⌊q⌋ ≤ 2 ^ 32 - 1 := by omega
  exact min_eq_left this

theorem f32toU32_natCast (n : ℕ) (hn : n < 2 ^ 32) :
    f32toU32 (n : ℚ) = n := by
  rw [f32toU32_eq_toNat_floor _ (by exact_mod_cast hn), Int.floor_natCast,
    Int.toNat_natCast]

theorem toNat_floor_cast_eq (q : ℚ) (h0 : 0 ≤ q) :
    ((Int.toNat ⌊q⌋ : ℕ) : ℚ) = ((⌊q⌋ : ℤ) : ℚ) := by
  have hnn : (0 : ℤ) ≤ ⌊q⌋ := Int.floor_nonneg.mpr h0
  exact_mod_cast congrArg (fun z : ℤ => (z : ℚ)) (Int.toNat_of_nonneg hnn)

theorem toNat_floor_cast_le (q : ℚ) (h0 : 0 ≤ q) :
    (Int.toNat ⌊q⌋ : ℚ) ≤ q := by
  rw [toNat_floor_cast_eq q h0]
  exact Int.floor_le q

theorem sub_one_lt_toNat_floor (q : ℚ) (h0 : 0 ≤ q) :
    q - 1 < (Int.toNat ⌊q⌋ : ℚ) := by
  rw [toNat_floor_cast_eq q h0]
  exact Int.sub_one_lt_floor q

theorem abs_toNat_floor_sub_le (q : ℚ) (h0 : 0 ≤ q) :
    |(Int.toNat ⌊q⌋ : ℚ) - q| ≤ 1 := by
  have h1 := toNat_floor_cast_le q h0
  have h2 := sub_one_lt_toNat_floor q h0
  rw [abs_le]
  constructor <;> linarith

theorem fitViewport_wide (w h : ℕ) (a : ℚ) (hr : a < (w : ℚ) / h) :
    fitViewport ⟨w, h⟩ a =
      { physical_position := (f32toU32 ((w : ℚ) / 2 - (h : ℚ) * a / 2), 0)
        physical_size := (f32toU32 ((h : ℚ) * a), f32toU32 (h : ℚ)) } := by
  simp only [fitViewport]
  rw [if_pos hr]
  rfl

theorem fitViewport_tall (w h : ℕ) (a : ℚ) (hr : ¬ a < (w : ℚ) / h) :
    fitViewport ⟨w, h⟩ a =
      { physical_position := (0, f32toU32 ((h : ℚ) / 2 - (w : ℚ) / a / 2))
        physical_size := (f32toU32 (w : ℚ), f32toU32 ((w : ℚ) / a)) } := by
  simp only [fitViewport]
  rw [if_neg hr]
  rfl

theorem fitViewport_wide_eq (w h : ℕ) (a : ℚ) (hh : 0 < h)
    (hwlt : w < 2 ^ 32) (hhlt : h < 2 ^ 32) (ha : 0 ≤ a)
    (hr : a < (w : ℚ) / h) :
    fitViewport ⟨w, h⟩ a =
      { physical_position := (Int.toNat ⌊((w : ℚ) - (h : ℚ) * a) / 2⌋, 0)
        physical_size := (Int.toNat ⌊(h : ℚ) * a⌋, h) } := by
  have hh0 : (0 : ℚ) < h := by exact_mod_cast hh
  have hha : (h : ℚ) * a < w := by
    have := (lt_div_iff₀ hh0).mp hr
    linarith
  have hwq : (w : ℚ) < 2 ^ 32 := by exact_mod_cast hwlt
  have hha0 : (0 : ℚ) ≤ (h : ℚ) * a := by positivity
  rw [fitViewport_wide w h a hr]
  have e1 : (w : ℚ) / 2 - (h : ℚ) * a / 2 = ((w : ℚ) - (h : ℚ) * a) / 2 := by
    ring
  rw [e1, f32toU32_eq_toNat_floor _ (by linarith),
    f32toU32_eq_toNat_floor ((h : ℚ) * a) (by linarith),
    f32toU32_natCast h hhlt]

theorem fitViewport_tall_eq (w h : ℕ) (a : ℚ) (hh : 0 < h)
    (hwlt : w < 2 ^ 32) (hhlt : h < 2 ^ 32) (ha : 0 < a)
    (hr : ¬ a < (w : ℚ) / h) :
    fitViewport ⟨w, h⟩ a =
      { physical_position := (0, Int.toNat ⌊((h : ℚ) - (w : ℚ) / a) / 2⌋)
        physical_size := (w, Int.toNat ⌊(w : ℚ) / a⌋) } := by
  have hh0 : (0 : ℚ) < h := by exact_mod_cast hh
  have hhq : (h : ℚ) < 2 ^ 32 := by exact_mod_cast hhlt
  push_neg at hr
  have hwa : (w : ℚ) / a ≤ h := by
    rw [div_le_iff₀ ha]
    have := (div_le_iff₀ hh0).mp hr
    linarith
  have hwa0 : (0 : ℚ) ≤ (w : ℚ) / a := by positivity
  rw [fitViewport_tall w h a (by push_neg; exact hr)]
  have e1 : (h : ℚ) / 2 - (w : ℚ) / a / 2 = ((h : ℚ) - (w : ℚ) / a) / 2 := by
    ring
  rw [e1, f32toU32_eq_toNat_floor _ (by linarith),
    f32toU32_eq_toNat_floor ((w : ℚ) / a) (by linarith),
    f32toU32_natCast w hwlt]

theorem tall_ratio_bound (w : ℕ) (a : ℚ) (ha : 0 < a) :
    |(w : ℚ) - a * (Int.toNat ⌊(w : ℚ) / a⌋ : ℚ)| ≤ a := by
  have h0 : (0 : ℚ) ≤ (w : ℚ) / a := by positivity
  have h1 : (Int.toNat ⌊(w : ℚ) / a⌋ : ℚ) ≤ (w : ℚ) / a :=
    toNat_floor_cast_le _ h0
  have h2 : (w : ℚ) / a - 1 < (Int.toNat ⌊(w : ℚ) / a⌋ : ℚ) :=
    sub_one_lt_toNat_floor _ h0
  have e : a * ((w : ℚ) / a) = w := by field_simp
  have hA : a * (Int.toNat ⌊(w : ℚ) / a⌋ : ℚ) ≤ w := by
    have := mul_le_mul_of_nonneg_left h1 (le_of_lt ha)
    rw [e] at this
    exact this
  have hB : (w : ℚ) - a < a * (Int.toNat ⌊(w : ℚ) / a⌋ : ℚ) := by
    have h3 := mul_lt_mul_of_pos_left h2 ha
    have e2 : a * ((w : ℚ) / a - 1) = (w : ℚ) - a := by
      rw [mul_sub, e, mul_one]
    rw [e2] at h3
    exact h3
  rw [abs_le]
  constructor <;> linarith

theorem ratio_quot_bound (n d : ℕ) (a M : ℚ) (hd : 0 < d)
    (habs : |(n : ℚ) - a * d| ≤ M) :
    |(n : ℚ) / (d : ℚ) - a| ≤ M / d := by
  have hd0 : (0 : ℚ) < d := by exact_mod_cast hd
  have e : (n : ℚ) / d - a = ((n : ℚ) - a * d) / d := by
    field_simp
    ring
  rw [e, abs_div, abs_of_pos hd0]
  gcongr

theorem center_offset_bound (d : ℕ) (f : ℚ) (hf0 : 0 ≤ f)
    (hfd : f ≤ (d : ℚ)) :
    |(Int.toNat ⌊((d : ℚ) - f) / 2⌋ : ℚ) -
      ((d : ℚ) - (Int.toNat ⌊f⌋ : ℚ)) / 2| ≤ 1 := by
  have hX0 : (0 : ℚ) ≤ ((d : ℚ) - f) / 2 := by linarith
  have hX1 : (Int.toNat ⌊((d : ℚ) - f) / 2⌋ : ℚ) ≤ ((d : ℚ) - f) / 2 :=
    toNat_floor_cast_le _ hX0
  have hX2 : ((d : ℚ) - f) / 2 - 1 < (Int.toNat ⌊((d : ℚ) - f) / 2⌋ : ℚ) :=
    sub_one_lt_toNat_floor _ hX0
  have hF1 : (Int.toNat ⌊f⌋ : ℚ) ≤ f := toNat_floor_cast_le f hf0
  have hF2 : f - 1 < (Int.toNat ⌊f⌋ : ℚ) := sub_one_lt_toNat_floor f hf0
  have hFeq := toNat_floor_cast_eq f hf0
  have hXeq := toNat_floor_cast_eq (((d : ℚ) - f) / 2) hX0
  have hzq : (d : ℚ) - (Int.toNat ⌊f⌋ : ℚ) -
      2 * (Int.toNat ⌊((d : ℚ) - f) / 2⌋ : ℚ) =
      (((d : ℤ) - ⌊f⌋ - 2 * ⌊((d : ℚ) - f) / 2⌋ : ℤ) : ℚ) := by
    rw [hFeq, hXeq]
    push_cast
    ring
  have hq0 : (0 : ℚ) ≤ (d : ℚ) - (Int.toNat ⌊f⌋ : ℚ) -
      2 * (Int.toNat ⌊((d : ℚ) - f) / 2⌋ : ℚ) := by linarith
  have hq3 : (d : ℚ) - (Int.toNat ⌊f⌋ : ℚ) -
      2 * (Int.toNat ⌊((d : ℚ) - f) / 2⌋ : ℚ) < 3 := by linarith
  have hz0 : (0 : ℤ) ≤ (d : ℤ) - ⌊f⌋ - 2 * ⌊((d : ℚ) - f) / 2⌋ := by
    have := hq0
    rw [hzq] at this
    exact_mod_cast this
  have hz3 : (d : ℤ) - ⌊f⌋ - 2 * ⌊((d : ℚ) - f) / 2⌋ < 3 := by
    have := hq3
    rw [hzq] at this
    exact_mod_cast this
  have hz2 : (d : ℤ) - ⌊f⌋ - 2 * ⌊((d : ℚ) - f) / 2⌋ ≤ 2 := by omega
  have hq2 : (d : ℚ) - (Int.toNat ⌊f⌋ : ℚ) -
      2 * (Int.toNat ⌊((d : ℚ) - f) / 2⌋ : ℚ) ≤ 2 := by
    rw [hzq]
    exact_mod_cast hz2
  rw [abs_le]
  constructor
  · linarith
  · linarith

/-- C1: for every surface size (w,h) with w,h > 0 (bounded by the u32
range of the source) and every aspect ratio a > 0, the rectangle
computed and written by the sync pass satisfies 0 ≤ x, 0 ≤ y,
x + rw ≤ w, y + rh ≤ h (fully contained in the surface's pixel bounds),
and the aspect ratio is preserved up to integer truncation: the written
sizes satisfy |rw - a * rh| ≤ max 1 a, hence whenever rh > 0 the ratio
error is |rw / rh - a| ≤ ε with ε = max 1 a / rh. -/
theorem c1_fit_contained (w h : ℕ) (a : ℚ) (hw : 0 < w) (hh : 0 < h)
    (hwlt : w < 2 ^ 32) (hhlt : h < 2 ^ 32) (ha : 0 < a) :
    0 ≤ (fitViewport ⟨w, h⟩ a).physical_position.1 ∧
    0 ≤ (fitViewport ⟨w, h⟩ a).physical_position.2 ∧
    (fitViewport ⟨w, h⟩ a).physical_position.1 +
      (fitViewport ⟨w, h⟩ a).physical_size.1 ≤ w ∧
    (fitViewport ⟨w, h⟩ a).physical_position.2 +
      (fitViewport ⟨w, h⟩ a).physical_size.2 ≤ h ∧
    |((fitViewport ⟨w, h⟩ a).physical_size.1 : ℚ) -
      a * ((fitViewport ⟨w, h⟩ a).physical_size.2 : ℚ)| ≤ max 1 a ∧
    (0 < (fitViewport ⟨w, h⟩ a).physical_size.2 →
      |((fitViewport ⟨w, h⟩ a).physical_size.1 : ℚ) /
          ((fitViewport ⟨w, h⟩ a).physical_size.2 : ℚ) - a| ≤
        max 1 a / ((fitViewport ⟨w, h⟩ a).physical_size.2 : ℚ)) := by
  have hh0 : (0 : ℚ) < h := by exact_mod_cast hh
  by_cases hrc : a < (w : ℚ) / h
  · rw [fitViewport_wide_eq w h a hh hwlt hhlt (le_of_lt ha) hrc]
    have hha : (h : ℚ) * a < w := by
      have := (lt_div_iff₀ hh0).mp hrc
      linarith
    have hha0 : (0 : ℚ) ≤ (h : ℚ) * a := by positivity
    have hx0 : (0 : ℚ) ≤ ((w : ℚ) - (h : ℚ) * a) / 2 := by linarith
    have hxle : (Int.toNat ⌊((w : ℚ) - (h : ℚ) * a) / 2⌋ : ℚ) ≤
        ((w : ℚ) - (h : ℚ) * a) / 2 := toNat_floor_cast_le _ hx0
    have hwle : (Int.toNat ⌊(h : ℚ) * a⌋ : ℚ) ≤ (h : ℚ) * a :=
      toNat_floor_cast_le _ hha0
    have habs : |(Int.toNat ⌊(h : ℚ) * a⌋ : ℚ) - a * (h : ℚ)| ≤ 1 := by
      have := abs_toNat_floor_sub_le ((h : ℚ) * a) hha0
      rw [mul_comm (a := a)]
      exact this
    refine ⟨Nat.zero_le _, Nat.zero_le _, ?_, by simp, ?_, ?_⟩
    · have hsum : (Int.toNat ⌊((w : ℚ) - (h : ℚ) * a) / 2⌋ : ℚ) +
          (Int.toNat ⌊(h : ℚ) * a⌋ : ℚ) ≤ (w : ℚ) := by linarith
      exact_mod_cast hsum
    · have h1 : |(Int.toNat ⌊(h : ℚ) * a⌋ : ℚ) - a * (h : ℕ)| ≤ 1 := habs
      calc |(Int.toNat ⌊(h : ℚ) * a⌋ : ℚ) - a * ((h : ℕ) : ℚ)| ≤ 1 := h1
        _ ≤ max 1 a := le_max_left 1 a
    · intro _
      refine ratio_quot_bound _ h a (max 1 a) hh ?_
      calc |(Int.toNat ⌊(h : ℚ) * a⌋ : ℚ) - a * ((h : ℕ) : ℚ)| ≤ 1 := habs
        _ ≤ max 1 a := le_max_left 1 a
  · rw [fitViewport_tall_eq w h a hh hwlt hhlt ha hrc]
    push_neg at hrc
    have hwa : (w : ℚ) / a ≤ h := by
      rw [div_le_iff₀ ha]
      have := (div_le_iff₀ hh0).mp hrc
      linarith
    have hwa0 : (0 : ℚ) ≤ (w : ℚ) / a := by positivity
    have hy0 : (0 : ℚ) ≤ ((h : ℚ) - (w : ℚ) / a) / 2 := by linarith
    have hyle : (Int.toNat ⌊((h : ℚ) - (w : ℚ) / a) / 2⌋ : ℚ) ≤
        ((h : ℚ) - (w : ℚ) / a) / 2 := toNat_floor_cast_le _ hy0
    have hhle : (Int.toNat ⌊(w : ℚ) / a⌋ : ℚ) ≤ (w : ℚ) / a :=
      toNat_floor_cast_le _ hwa0
    have habs : |(w : ℚ) - a * (Int.toNat ⌊(w : ℚ) / a⌋ : ℚ)| ≤ a :=
      tall_ratio_bound w a ha
    refine ⟨Nat.zero_le _, Nat.zero_le _, by simp, ?_, ?_, ?_⟩
    · have hsum : (Int.toNat ⌊((h : ℚ) - (w : ℚ) / a) / 2⌋ : ℚ) +
          (Int.toNat ⌊(w : ℚ) / a⌋ : ℚ) ≤ (h : ℚ) := by linarith
      exact_mod_cast hsum
    · calc |((w : ℕ) : ℚ) - a * (Int.toNat ⌊(w : ℚ) / a⌋ : ℚ)| ≤ a := habs
        _ ≤ max 1 a := le_max_right 1 a
    · intro hpos
      refine ratio_quot_bound w _ a (max 1 a) hpos ?_
      calc |((w : ℕ) : ℚ) - a * (Int.toNat ⌊(w : ℚ) / a⌋ : ℚ)| ≤ a := habs
        _ ≤ max 1 a := le_max_right 1 a

/-- Witness for C1 at the 1000 x 1000 surface with aspect ratio 2. -/
theorem c1_fit_contained_witness :
    0 < 1000 ∧ (0 : ℚ) < 2 ∧
    (0 ≤ (fitViewport ⟨1000, 1000⟩ 2).physical_position.1 ∧
      0 ≤ (fitViewport ⟨1000, 1000⟩ 2).physical_position.2 ∧
      (fitViewport ⟨1000, 1000⟩ 2).physical_position.1 +
        (fitViewport ⟨1000, 1000⟩ 2).physical_size.1 ≤ 1000 ∧
      (fitViewport ⟨1000, 1000⟩ 2).physical_position.2 +
        (fitViewport ⟨1000, 1000⟩ 2).physical_size.2 ≤ 1000 ∧
      |((fitViewport ⟨1000, 1000⟩ 2).physical_size.1 : ℚ) -
        2 * ((fitViewport ⟨1000, 1000⟩ 2).physical_size.2 : ℚ)| ≤ max 1 2 ∧
      (0 < (fitViewport ⟨1000, 1000⟩ 2).physical_size.2 →
        |((fitViewport ⟨1000, 1000⟩ 2).physical_size.1 : ℚ) /
            ((fitViewport ⟨1000, 1000⟩ 2).physical_size.2 : ℚ) - 2| ≤
          max 1 2 / ((fitViewport ⟨1000, 1000⟩ 2).physical_size.2 : ℚ))) :=
  ⟨by norm_num, by norm_num,
    c1_fit_contained 1000 1000 2 (by norm_num) (by norm_num) (by norm_num)
      (by norm_num) (by norm_num)⟩

/-- C4: the fitting computation branches on
surfaceRatio = surfaceWidth / surfaceHeight.  If surfaceRatio > a the
written rectangle is h = surfaceHeight, w = trunc(h * a),
x = trunc((surfaceWidth - h * a) / 2), y = 0; otherwise it is
w = surfaceWidth, h = trunc(w / a), y = trunc((surfaceHeight - w / a) / 2),
x = 0; and a surface whose ratio equals the target aspect ratio falls
into the second branch and yields exactly (0, 0, surfaceWidth,
surfaceHeight). -/
theorem c4_fit_branches (w h : ℕ) (a : ℚ) (hw : 0 < w) (hh : 0 < h)
    (hwlt : w < 2 ^ 32) (hhlt : h < 2 ^ 32) (ha : 0 < a) :
    ((w : ℚ) / h > a →
      fitViewport ⟨w, h⟩ a =
        { physical_position := (Int.toNat ⌊((w : ℚ) - (h : ℚ) * a) / 2⌋, 0)
          physical_size := (Int.toNat ⌊(h : ℚ) * a⌋, h) }) ∧
    (¬ (w : ℚ) / h > a →
      fitViewport ⟨w, h⟩ a =
        { physical_position := (0, Int.toNat ⌊((h : ℚ) - (w : ℚ) / a) / 2⌋)
          physical_size := (w, Int.toNat ⌊(w : ℚ) / a⌋) }) ∧
    ((w : ℚ) / h = a → fitViewport ⟨w, h⟩ a = ⟨(0, 0), (w, h)⟩) := by
  refine ⟨fun hr => fitViewport_wide_eq w h a hh hwlt hhlt (le_of_lt ha) hr,
    fun hr => fitViewport_tall_eq w h a hh hwlt hhlt ha hr, fun hr => ?_⟩
  have hw0 : (w : ℚ) ≠ 0 := by
    have : (0 : ℚ) < w := by exact_mod_cast hw
    exact ne_of_gt this
  have hh0 : (h : ℚ) ≠ 0 := by
    have : (0 : ℚ) < h := by exact_mod_cast hh
    exact ne_of_gt this
  have hnr : ¬ a < (w : ℚ) / h := by
    rw [hr]
    exact lt_irrefl a
  rw [fitViewport_tall_eq w h a hh hwlt hhlt ha hnr]
  have hwa : (w : ℚ) / a = h := by
    rw [← hr]
    field_simp
  rw [hwa]
  norm_num

/-- Witness for C4 at the 1000 x 1000 surface with aspect ratio 2 (the
tall branch) evaluated concretely. -/
theorem c4_fit_branches_witness :
    0 < 1000 ∧ (0 : ℚ) < 2 ∧ ¬ (1000 : ℚ) / 1000 > 2 ∧
    fitViewport ⟨1000, 1000⟩ 2 =
      { physical_position := (0, Int.toNat ⌊((1000 : ℚ) - 1000 / 2) / 2⌋)
        physical_size := (1000, Int.toNat ⌊(1000 : ℚ) / 2⌋) } :=
  ⟨by norm_num, by norm_num, by norm_num,
    (c4_fit_branches 1000 1000 2 (by norm_num) (by norm_num) (by norm_num)
      (by norm_num) (by norm_num)).2.1 (by norm_num)⟩

/-- C6 counterexample: on the claim's own example (surface 1920 x 1080,
target ratio 16/9) the computed rectangle is (0,0,1920,1080), so BOTH
offsets are 0 and the claimed "exactly one of x, y is 0" is false. -/
theorem c6_centering_counterexample :
    (fitViewport ⟨1920, 1080⟩ (16 / 9)).physical_position.1 = 0 ∧
    (fitViewport ⟨1920, 1080⟩ (16 / 9)).physical_position.2 = 0 ∧
    ¬ Xor' ((fitViewport ⟨1920, 1080⟩ (16 / 9)).physical_position.1 = 0)
        ((fitViewport ⟨1920, 1080⟩ (16 / 9)).physical_position.2 = 0) := by
  have he : fitViewport ⟨1920, 1080⟩ (16 / 9) = ⟨(0, 0), (1920, 1080)⟩ := by
    norm_num [fitViewport, f32toU32]
    all_goals decide
  rw [he]
  refine ⟨rfl, rfl, ?_⟩
  simp [Xor']

/-- C6 amended: at least one of x, y is 0 (both are exactly when the
ratios agree), and the nonzero-axis offset equals
(dimension - fittedDimension) / 2 up to 1 pixel of truncation error;
the claim's two examples hold: surface 1920 x 1080 with ratio 16/9
yields (0,0,1920,1080), and surface 1000 x 1000 with ratio 2 yields
x = 0, y = 250, w = 1000, h = 500. -/
theorem c6_centering_amended (w h : ℕ) (a : ℚ) (hw : 0 < w) (hh : 0 < h)
    (hwlt : w < 2 ^ 32) (hhlt : h < 2 ^ 32) (ha : 0 < a) :
    ((fitViewport ⟨w, h⟩ a).physical_position.1 = 0 ∨
      (fitViewport ⟨w, h⟩ a).physical_position.2 = 0) ∧
    ((w : ℚ) / h > a →
      (fitViewport ⟨w, h⟩ a).physical_position.2 = 0 ∧
      |((fitViewport ⟨w, h⟩ a).physical_position.1 : ℚ) -
        ((w : ℚ) - ((fitViewport ⟨w, h⟩ a).physical_size.1 : ℚ)) / 2| ≤ 1) ∧
    (¬ (w : ℚ) / h > a →
      (fitViewport ⟨w, h⟩ a).physical_position.1 = 0 ∧
      |((fitViewport ⟨w, h⟩ a).physical_position.2 : ℚ) -
        ((h : ℚ) - ((fitViewport ⟨w, h⟩ a).physical_size.2 : ℚ)) / 2| ≤ 1) ∧
    fitViewport ⟨1920, 1080⟩ (16 / 9) = ⟨(0, 0), (1920, 1080)⟩ ∧
    fitViewport ⟨1000, 1000⟩ 2 = ⟨(0, 250), (1000, 500)⟩ := by
  have hh0 : (0 : ℚ) < h := by exact_mod_cast hh
  refine ⟨?_, ?_, ?_, ?_, ?_⟩
  · by_cases hrc : a < (w : ℚ) / h
    · right
      rw [fitViewport_wide_eq w h a hh hwlt hhlt (le_of_lt ha) hrc]
    · left
      rw [fitViewport_tall_eq w h a hh hwlt hhlt ha hrc]
  · intro hrc
    rw [fitViewport_wide_eq w h a hh hwlt hhlt (le_of_lt ha) hrc]
    have hha : (h : ℚ) * a < w := by
      have := (lt_div_iff₀ hh0).mp hrc
      linarith
    have hha0 : (0 : ℚ) ≤ (h : ℚ) * a := by positivity
    exact ⟨rfl, center_offset_bound w ((h : ℚ) * a) hha0 (le_of_lt hha)⟩
  · intro hrc
    rw [fitViewport_tall_eq w h a hh hwlt hhlt ha hrc]
    push_neg at hrc
    have hwa : (w : ℚ) / a ≤ h := by
      rw [div_le_iff₀ ha]
      have := (div_le_iff₀ hh0).mp hrc
      linarith
    have hwa0 : (0 : ℚ) ≤ (w : ℚ) / a := by positivity
    exact ⟨rfl, center_offset_bound h ((w : ℚ) / a) hwa0 hwa⟩
  · norm_num [fitViewport, f32toU32]
    all_goals decide
  · norm_num [fitViewport, f32toU32]
    all_goals decide

/-- Witness for the amended C6 at the 1000 x 1000 surface with aspect
ratio 2. -/
theorem c6_centering_amended_witness :
    0 < 1000 ∧ (0 : ℚ) < 2 ∧
    ((fitViewport ⟨1000, 1000⟩ 2).physical_position.1 = 0 ∨
      (fitViewport ⟨1000, 1000⟩ 2).physical_position.2 = 0) :=
  ⟨by norm_num, by norm_num,
    (c6_centering_amended 1000 1000 2 (by norm_num) (by norm_num)
      (by norm_num) (by norm_num) (by norm_num)).1⟩

/-- C7: the pixel coordinates written into the viewport rectangle are
obtained from the exact (pre-cast) values of the computation by
truncation toward zero, i.e. each written component is the floor of the
corresponding exact value; and truncation differs from rounding, e.g.
at surface 1000 x 1000 with ratio 3/2 the written height is 666 while
rounding the exact height 1000 / (3/2) would give 667. -/
theorem c7_truncation (w h : ℕ) (a : ℚ) (hw : 0 < w) (hh : 0 < h)
    (hwlt : w < 2 ^ 32) (hhlt : h < 2 ^ 32) (ha : 0 < a) :
    fitViewport ⟨w, h⟩ a =
      { physical_position :=
          (Int.toNat ⌊exactFitX w h a⌋, Int.toNat ⌊exactFitY w h a⌋)
        physical_size :=
          (Int.toNat ⌊exactFitW w h a⌋, Int.toNat ⌊exactFitH w h a⌋) } ∧
    (fitViewport ⟨1000, 1000⟩ (3 / 2)).physical_size.2 = 666 ∧
    round ((1000 : ℚ) / (3 / 2)) = 667 := by
  refine ⟨?_, ?_, ?_⟩
  · by_cases hrc : a < (w : ℚ) / h
    · rw [fitViewport_wide_eq w h a hh hwlt hhlt (le_of_lt ha) hrc]
      simp only [exactFitX, exactFitY, exactFitW, exactFitH, if_pos hrc]
      rw [show (w : ℚ) / 2 - (h : ℚ) * a / 2 = ((w : ℚ) - (h : ℚ) * a) / 2
        from by ring]
      norm_num
    · rw [fitViewport_tall_eq w h a hh hwlt hhlt ha hrc]
      simp only [exactFitX, exactFitY, exactFitW, exactFitH, if_neg hrc]
      rw [show (h : ℚ) / 2 - (w : ℚ) / a / 2 = ((h : ℚ) - (w : ℚ) / a) / 2
        from by ring]
      norm_num
  · norm_num [fitViewport, f32toU32]
    all_goals decide
  · rw [round_eq]
    norm_num

/-- Witness for C7 at the 800 x 600 surface with aspect ratio 1. -/
theorem c7_truncation_witness :
    0 < 800 ∧ (0 : ℚ) < 1 ∧
    fitViewport ⟨800, 600⟩ 1 =
      { physical_position :=
          (Int.toNat ⌊exactFitX 800 600 1⌋, Int.toNat ⌊exactFitY 800 600 1⌋)
        physical_size :=
          (Int.toNat ⌊exactFitW 800 600 1⌋, Int.toNat ⌊exactFitH 800 600 1⌋) } :=
  ⟨by norm_num, by norm_num,
    (c7_truncation 800 600 1 (by norm_num) (by norm_num) (by norm_num)
      (by norm_num) (by norm_num)).1⟩

theorem processEvent_window_none (world : World) (wid : ℕ)
    (hfind : world.windows.find? (fun w2 => w2.id == wid) = none) :
    processEvent world (SyncEvent.window wid) = world := by
  simp [processEvent, hfind]

theorem processEvent_window_eq (world : World) (wid : ℕ) (we : WindowEntity)
    (hfind : world.windows.find? (fun w2 => w2.id == wid) = some we) :
    processEvent world (SyncEvent.window wid) =
      { world with cameras := world.cameras.map (windowPass we wid) } := by
  simp [processEvent, hfind]

/-- C2 counterexample: in `worldC2` the resolved pair has a surface of
zero physical width, yet one `SurfaceChanged` signal is NOT skipped:
the sync pass writes `some` rectangle with physical size (0, 0) — a
degenerate rectangle — into the camera's viewport field. -/
theorem c2_skip_counterexample :
    worldC2.cameras.map (fun c => c.camera.viewport) = [none] ∧
    (sync_viewport worldC2 [SyncEvent.window 1]).cameras.map
        (fun c => c.camera.viewport) = [some ⟨(0, 50), (0, 0)⟩] ∧
    (⟨(0, 50), (0, 0)⟩ : Viewport).physical_size = (0, 0) := by
  have hfit : fitViewport ⟨0, 100⟩ 1 = ⟨(0, 50), (0, 0)⟩ := by
    norm_num [fitViewport, f32toU32]
    all_goals decide
  refine ⟨rfl, ?_, rfl⟩
  have hfind : worldC2.windows.find? (fun w2 => w2.id == 1) =
      some ⟨1, ⟨0, 100⟩, true⟩ := rfl
  show (processEvent worldC2 (SyncEvent.window 1)).cameras.map
      (fun c => c.camera.viewport) = [some ⟨(0, 50), (0, 0)⟩]
  rw [processEvent_window_eq worldC2 1 ⟨1, ⟨0, 100⟩, true⟩ hfind]
  simp [worldC2, windowPass, cameraMatchesWindow, writeViewport, hfit]

/-- C2 amended: a resolved pair whose surface has zero physical width is
not skipped; the applier still runs and writes a rectangle whose width
and height are both zero (position (0, trunc(h/2))). -/
theorem c2_degenerate_amended (h : ℕ) (a : ℚ) (hh : 0 < h)
    (hhlt : h < 2 ^ 32) (ha : 0 < a) :
    fitViewport ⟨0, h⟩ a =
      { physical_position := (0, Int.toNat ⌊(h : ℚ) / 2⌋)
        physical_size := (0, 0) } := by
  have hr : ¬ a < ((0 : ℕ) : ℚ) / (h : ℚ) := by
    rw [Nat.cast_zero, zero_div]
    exact not_lt.mpr (le_of_lt ha)
  rw [fitViewport_tall_eq 0 h a hh (by norm_num) hhlt ha hr]
  norm_num

/-- Witness for the amended C2 at surface height 100, aspect ratio 1. -/
theorem c2_degenerate_amended_witness :
    0 < 100 ∧ (0 : ℚ) < 1 ∧
    fitViewport ⟨0, 100⟩ 1 =
      { physical_position := (0, Int.toNat ⌊(100 : ℚ) / 2⌋)
        physical_size := (0, 0) } :=
  ⟨by norm_num, by norm_num,
    c2_degenerate_amended 100 1 (by norm_num) (by norm_num) (by norm_num)⟩

theorem exactlyOne_eq_none {α : Type} (l : List α) (hl : l.length ≠ 1) :
    exactlyOne l = none := by
  match l with
  | [] => rfl
  | [x] => exact absurd rfl hl
  | a :: b :: t => rfl

theorem processEvent_camera_none (world : World) (cid : ℕ)
    (hfind : world.cameras.find? (fun c => c.id == cid) = none) :
    processEvent world (SyncEvent.camera cid) = world := by
  simp [processEvent, hfind]

theorem processEvent_camera_drop (world : World) (cid : ℕ) (ce : CameraEntity)
    (hfind : world.cameras.find? (fun c => c.id == cid) = some ce)
    (hres : resolveCameraTarget world ce.camera = none) :
    processEvent world (SyncEvent.camera cid) = world := by
  simp [processEvent, hfind, hres]

/-- C3 counterexample: in `worldC3` two windows are both flagged primary
and the camera targets the default/primary window; a `SurfaceChanged`
signal for window 1 is NOT dropped — the camera's viewport rectangle
changes from `none` to a computed rectangle, because the window-event
path checks only the changed window's own primary flag, not uniqueness. -/
theorem c3_ambiguous_counterexample :
    (worldC3.windows.filter (fun we => we.primary)).length = 2 ∧
    worldC3.cameras.map (fun c => c.camera.viewport) = [none] ∧
    (sync_viewport worldC3 [SyncEvent.window 1]).cameras.map
        (fun c => c.camera.viewport) = [some ⟨(100, 0), (600, 600)⟩] := by
  have hfit : fitViewport ⟨800, 600⟩ 1 = ⟨(100, 0), (600, 600)⟩ := by
    norm_num [fitViewport, f32toU32]
    all_goals decide
  refine ⟨rfl, rfl, ?_⟩
  have hfind : worldC3.windows.find? (fun w2 => w2.id == 1) =
      some ⟨1, ⟨800, 600⟩, true⟩ := rfl
  show (processEvent worldC3 (SyncEvent.window 1)).cameras.map
      (fun c => c.camera.viewport) = [some ⟨(100, 0), (600, 600)⟩]
  rw [processEvent_window_eq worldC3 1 ⟨1, ⟨800, 600⟩, true⟩ hfind]
  simp [worldC3, windowPass, cameraMatchesWindow, writeViewport, hfit]

/-- C3 amended: a `CameraChanged` signal for a view targeting the
default/primary surface is dropped (world unchanged) whenever the number
of primary-flagged surfaces differs from one; but a `SurfaceChanged`
signal checks only whether the changed surface itself is flagged
primary, so with several primaries such a signal still recomputes
default-targeting views (see the counterexample). -/
theorem c3_ambiguous_amended (world : World) (cid : ℕ)
    (htarget : ∀ ce ∈ world.cameras, ce.id = cid →
      ce.camera.target = RenderTarget.window WindowRef.primary)
    (hprim : (world.windows.filter (fun we => we.primary)).length ≠ 1) :
    processEvent world (SyncEvent.camera cid) = world := by
  cases hfind : world.cameras.find? (fun c => c.id == cid) with
  | none => exact processEvent_camera_none world cid hfind
  | some ce =>
    have hmem : ce ∈ world.cameras := List.mem_of_find?_eq_some hfind
    have hid : ce.id = cid := by
      have := List.find?_some hfind
      simpa using this
    have ht := htarget ce hmem hid
    have hres : resolveCameraTarget world ce.camera = none := by
      simp [resolveCameraTarget, ht, exactlyOne_eq_none _ hprim]
    exact processEvent_camera_drop world cid ce hfind hres

/-- Witness for the amended C3: in `worldC3` (two primary windows) a
`CameraChanged` signal for the default-targeting camera leaves the world
unchanged. -/
theorem c3_ambiguous_amended_witness :
    (worldC3.windows.filter (fun we => we.primary)).length ≠ 1 ∧
    processEvent worldC3 (SyncEvent.camera 10) = worldC3 :=
  ⟨by decide,
    c3_ambiguous_amended worldC3 10 (by decide) (by decide)⟩

theorem cameraMatchesWindow_iff (p : Bool) (wid : ℕ) (cam : Camera) :
    cameraMatchesWindow p wid cam = true ↔
      (cam.target = RenderTarget.window (WindowRef.entity wid) ∨
        (cam.target = RenderTarget.window WindowRef.primary ∧ p = true)) := by
  cases cam with
  | mk t v =>
    cases t with
    | window ref =>
      cases ref with
      | primary => simp [cameraMatchesWindow]
      | entity e => simp [cameraMatchesWindow]
    | other => simp [cameraMatchesWindow]

/-- C5: for a `SurfaceChanged(wid)` signal, a missing surface drops the
signal (no pairs, world unchanged); otherwise the resolver selects
exactly the cameras whose render target resolves to that surface —
a direct reference to its id, or a default/primary reference when the
surface is flagged primary; in `worldC5` (3 such views: 2 direct, 1 via
default with the surface primary) the signal yields exactly 3 pairs. -/
theorem c5_window_resolution (world : World) (wid : ℕ) :
    (world.windows.find? (fun w2 => w2.id == wid) = none →
      processEvent world (SyncEvent.window wid) = world ∧
      resolveWindowEvent world wid = []) ∧
    (∀ we, world.windows.find? (fun w2 => w2.id == wid) = some we →
      ∀ c, c ∈ resolveWindowEvent world wid ↔
        (c ∈ world.cameras ∧
          (c.camera.target = RenderTarget.window (WindowRef.entity wid) ∨
            (c.camera.target = RenderTarget.window WindowRef.primary ∧
              we.primary = true)))) ∧
    (resolveWindowEvent worldC5 1).length = 3 := by
  refine ⟨fun hnone => ⟨?_, ?_⟩, fun we hfind c => ?_, ?_⟩
  · exact processEvent_window_none world wid hnone
  · simp [resolveWindowEvent, hnone]
  · rw [resolveWindowEvent, hfind]
    simp [List.mem_filter, cameraMatchesWindow_iff]
  · decide

/-- Witness for C5: a signal for the missing window id 99 in `worldC5`
is dropped. -/
theorem c5_window_resolution_witness :
    worldC5.windows.find? (fun w2 => w2.id == 99) = none ∧
    (processEvent worldC5 (SyncEvent.window 99) = worldC5 ∧
      resolveWindowEvent worldC5 99 = []) :=
  ⟨by decide, (c5_window_resolution worldC5 99).1 (by decide)⟩

theorem writeViewport_target (c : CameraEntity) (win : Window) :
    (writeViewport c win).camera.target = c.camera.target := rfl

theorem writeViewport_fixed (c : CameraEntity) (win : Window) :
    (writeViewport c win).fixed_viewport = c.fixed_viewport := rfl

theorem writeViewport_id_eq (c : CameraEntity) (win : Window) :
    (writeViewport c win).id = c.id := rfl

theorem writeViewport_idem (c : CameraEntity) (win : Window) :
    writeViewport (writeViewport c win) win = writeViewport c win := rfl

theorem cameraMatchesWindow_writeViewport (p : Bool) (wid : ℕ)
    (c : CameraEntity) (win : Window) :
    cameraMatchesWindow p wid (writeViewport c win).camera =
      cameraMatchesWindow p wid c.camera := rfl

theorem windowPass_idem (we : WindowEntity) (wid : ℕ) (c : CameraEntity) :
    windowPass we wid (windowPass we wid c) = windowPass we wid c := by
  cases hb : cameraMatchesWindow we.primary wid c.camera with
  | false => simp [windowPass, hb]
  | true =>
    simp [windowPass, hb, cameraMatchesWindow_writeViewport,
      writeViewport_idem]

theorem map_map_idem {α : Type} (f : α → α) (hf : ∀ a, f (f a) = f a)
    (l : List α) : (l.map f).map f = l.map f := by
  induction l with
  | nil => rfl
  | cons a t ih => simp [hf, ih]

/-- C8: two `SurfaceChanged` signals for the same surface id within one
tick leave every camera's viewport rectangle (indeed the whole world)
equal to what a single such signal produces. -/
theorem c8_redundant_signals (world : World) (wid : ℕ) :
    sync_viewport world [SyncEvent.window wid, SyncEvent.window wid] =
      sync_viewport world [SyncEvent.window wid] := by
  show processEvent (processEvent world (SyncEvent.window wid))
      (SyncEvent.window wid) = processEvent world (SyncEvent.window wid)
  cases hfind : world.windows.find? (fun w2 => w2.id == wid) with
  | none =>
    rw [processEvent_window_none world wid hfind,
      processEvent_window_none world wid hfind]
  | some we =>
    rw [processEvent_window_eq world wid we hfind]
    have hfind2 : ({ world with
        cameras := world.cameras.map (windowPass we wid) } : World).windows.find?
          (fun w2 => w2.id == wid) = some we := hfind
    rw [processEvent_window_eq _ wid we hfind2]
    show ({ world with
        cameras := (world.cameras.map (windowPass we wid)).map
          (windowPass we wid) } : World) =
      { world with cameras := world.cameras.map (windowPass we wid) }
    rw [map_map_idem (windowPass we wid) (windowPass_idem we wid)
      world.cameras]

theorem exactlyOne_mem {α : Type} {l : List α} {x : α}
    (h : exactlyOne l = some x) : x ∈ l := by
  match l, h with
  | [y], h =>
    have : y = x := by simpa [exactlyOne] using h
    rw [this]
    exact List.mem_singleton_self x

theorem resolveCameraTarget_mem (world : World) (cam : Camera)
    (we : WindowEntity) (h : resolveCameraTarget world cam = some we) :
    we ∈ world.windows := by
  cases cam with
  | mk t v =>
    cases t with
    | window ref =>
      cases ref with
      | primary =>
        simp only [resolveCameraTarget] at h
        exact List.mem_of_mem_filter (exactlyOne_mem h)
      | entity e =>
        simp only [resolveCameraTarget] at h
        exact List.mem_of_find?_eq_some h
    | other => simp [resolveCameraTarget] at h

theorem processEvent_camera_eq (world : World) (cid : ℕ) (ce : CameraEntity)
    (we : WindowEntity)
    (hfind : world.cameras.find? (fun c => c.id == cid) = some ce)
    (hres : resolveCameraTarget world ce.camera = some we) :
    processEvent world (SyncEvent.camera cid) =
      { world with cameras := world.cameras.map (cameraPass we cid) } := by
  simp [processEvent, hfind, hres]

theorem processEvent_windows (world : World) (ev : SyncEvent) :
    (processEvent world ev).windows = world.windows := by
  cases ev with
  | camera cid =>
    cases hfind : world.cameras.find? (fun c => c.id == cid) with
    | none => rw [processEvent_camera_none world cid hfind]
    | some ce =>
      cases hres : resolveCameraTarget world ce.camera with
      | none => rw [processEvent_camera_drop world cid ce hfind hres]
      | some we => rw [processEvent_camera_eq world cid ce we hfind hres]
  | window wid =>
    cases hfind : world.windows.find? (fun w2 => w2.id == wid) with
    | none => rw [processEvent_window_none world wid hfind]
    | some we => rw [processEvent_window_eq world wid we hfind]

theorem forall₂_map_self {α : Type} (R : α → α → Prop) (f : α → α)
    (l : List α) (h : ∀ a ∈ l, R a (f a)) :
    List.Forall₂ R l (l.map f) := by
  induction l with
  | nil => exact List.Forall₂.nil
  | cons a t ih =>
    exact List.Forall₂.cons (h a (List.mem_cons_self a t))
      (ih (fun b hb => h b (List.mem_cons_of_mem a hb)))

theorem processEvent_step (world : World) (ev : SyncEvent) :
    List.Forall₂ (stepCameraRel world ev) world.cameras
      (processEvent world ev).cameras := by
  have hrefl : ∀ c, stepCameraRel world ev c c :=
    fun c => ⟨⟨rfl, rfl, rfl, Or.inl rfl⟩, fun _ => rfl⟩
  cases ev with
  | camera cid =>
    cases hfind : world.cameras.find? (fun c => c.id == cid) with
    | none =>
      rw [processEvent_camera_none world cid hfind]
      exact List.forall₂_same.mpr (fun c _ => hrefl c)
    | some ce =>
      cases hres : resolveCameraTarget world ce.camera with
      | none =>
        rw [processEvent_camera_drop world cid ce hfind hres]
        exact List.forall₂_same.mpr (fun c _ => hrefl c)
      | some we =>
        rw [processEvent_camera_eq world cid ce we hfind hres]
        have hpid : pairedIds world (SyncEvent.camera cid) = [cid] := by
          simp [pairedIds, hfind, hres]
        refine forall₂_map_self _ _ _ (fun c _ => ?_)
        cases hcid : (c.id == cid) with
        | false =>
          have : cameraPass we cid c = c := by simp [cameraPass, hcid]
          rw [this]
          exact hrefl c
        | true =>
          have hpass : cameraPass we cid c = writeViewport c we.window := by
            simp [cameraPass, hcid]
          rw [hpass]
          refine ⟨⟨rfl, rfl, rfl,
            Or.inr ⟨we, resolveCameraTarget_mem world ce.camera we hres,
              rfl⟩⟩, fun hnp => ?_⟩
          exfalso
          apply hnp
          rw [hpid]
          exact List.mem_singleton.mpr (by simpa using hcid)
  | window wid =>
    cases hfind : world.windows.find? (fun w2 => w2.id == wid) with
    | none =>
      rw [processEvent_window_none world wid hfind]
      exact List.forall₂_same.mpr (fun c _ => hrefl c)
    | some we =>
      rw [processEvent_window_eq world wid we hfind]
      have hpid : pairedIds world (SyncEvent.window wid) =
          (world.cameras.filter
            (fun c => cameraMatchesWindow we.primary wid c.camera)).map
            (fun c => c.id) := by
        simp [pairedIds, resolveWindowEvent, hfind]
      refine forall₂_map_self _ _ _ (fun c hc => ?_)
      cases hb : cameraMatchesWindow we.primary wid c.camera with
      | false =>
        have : windowPass we wid c = c := by simp [windowPass, hb]
        rw [this]
        exact hrefl c
      | true =>
        have hpass : windowPass we wid c = writeViewport c we.window := by
          simp [windowPass, hb]
        rw [hpass]
        refine ⟨⟨rfl, rfl, rfl,
          Or.inr ⟨we, List.mem_of_find?_eq_some hfind, rfl⟩⟩,
          fun hnp => ?_⟩
        exfalso
        apply hnp
        rw [hpid]
        have hcf : c ∈ world.cameras.filter
            (fun c2 => cameraMatchesWindow we.primary wid c2.camera) :=
          List.mem_filter.mpr ⟨hc, by simpa using hb⟩
        exact List.mem_map_of_mem (fun c2 => c2.id) hcf

theorem cameraMatchesWindow_congr (p : Bool) (wid : ℕ) (cam1 cam2 : Camera)
    (ht : cam2.target = cam1.target) :
    cameraMatchesWindow p wid cam2 = cameraMatchesWindow p wid cam1 := by
  unfold cameraMatchesWindow
  rw [ht]

theorem resolveCameraTarget_congr (w1 w2 : World)
    (hw : w2.windows = w1.windows) (cam1 cam2 : Camera)
    (ht : cam2.target = cam1.target) :
    resolveCameraTarget w2 cam2 = resolveCameraTarget w1 cam1 := by
  unfold resolveCameraTarget
  rw [ht, hw]

theorem find?_id_forall₂ (cid : ℕ) {cs1 cs2 : List CameraEntity}
    (h : List.Forall₂ (fun c c2 => c2.id = c.id ∧
      c2.camera.target = c.camera.target) cs1 cs2) :
    (cs1.find? (fun c => c.id == cid) = none ∧
      cs2.find? (fun c => c.id == cid) = none) ∨
    (∃ ce1 ce2, cs1.find? (fun c => c.id == cid) = some ce1 ∧
      cs2.find? (fun c => c.id == cid) = some ce2 ∧
      ce2.id = ce1.id ∧ ce2.camera.target = ce1.camera.target) := by
  induction h with
  | nil => exact Or.inl ⟨rfl, rfl⟩
  | @cons a b l1 l2 hab htail ih =>
    cases hpa : (a.id == cid) with
    | true =>
      have hpb : (b.id == cid) = true := by rw [hab.1]; exact hpa
      exact Or.inr ⟨a, b, List.find?_cons_of_pos _ hpa,
        List.find?_cons_of_pos _ hpb, hab.1, hab.2⟩
    | false =>
      have hpb : (b.id == cid) = false := by rw [hab.1]; exact hpa
      rw [List.find?_cons_of_neg _ (by simp [hpa]),
        List.find?_cons_of_neg _ (by simp [hpb])]
      exact ih

theorem filter_map_id_forall₂ (p : Bool) (wid : ℕ)
    {cs1 cs2 : List CameraEntity}
    (h : List.Forall₂ (fun c c2 => c2.id = c.id ∧
      c2.camera.target = c.camera.target) cs1 cs2) :
    (cs2.filter (fun c => cameraMatchesWindow p wid c.camera)).map
        (fun c => c.id) =
      (cs1.filter (fun c => cameraMatchesWindow p wid c.camera)).map
        (fun c => c.id) := by
  induction h with
  | nil => rfl
  | @cons a b l1 l2 hab htail ih =>
    have hmatch : cameraMatchesWindow p wid b.camera =
        cameraMatchesWindow p wid a.camera :=
      cameraMatchesWindow_congr p wid a.camera b.camera hab.2
    rw [List.filter_cons, List.filter_cons, hmatch]
    cases hma : cameraMatchesWindow p wid a.camera with
    | true => simp [ih, hab.1]
    | false => simp [ih]

theorem pairedIds_invariant (w1 w2 : World) (hw : w2.windows = w1.windows)
    (hc : List.Forall₂ (fun c c2 => c2.id = c.id ∧
      c2.camera.target = c.camera.target) w1.cameras w2.cameras) :
    ∀ ev, pairedIds w2 ev = pairedIds w1 ev := by
  intro ev
  cases ev with
  | camera cid =>
    rcases find?_id_forall₂ cid hc with ⟨h1, h2⟩ | ⟨ce1, ce2, h1, h2, _, ht⟩
    · simp [pairedIds, h1, h2]
    · have hres : resolveCameraTarget w2 ce2.camera =
          resolveCameraTarget w1 ce1.camera :=
        resolveCameraTarget_congr w1 w2 hw ce1.camera ce2.camera ht
      simp only [pairedIds]
      rw [h1, h2]
      dsimp only
      rw [hres]
  | window wid =>
    have hfind : w2.windows.find? (fun we => we.id == wid) =
        w1.windows.find? (fun we => we.id == wid) := by rw [hw]
    simp only [pairedIds, resolveWindowEvent]
    rw [hfind]
    cases hf : w1.windows.find? (fun we => we.id == wid) with
    | none => rfl
    | some we => exact filter_map_id_forall₂ we.primary wid hc

theorem forall₂_trans_compose {α : Type} {R S T : α → α → Prop}
    (hcomp : ∀ a b c, R a b → S b c → T a c) :
    ∀ {l1 l2 l3 : List α}, List.Forall₂ R l1 l2 → List.Forall₂ S l2 l3 →
      List.Forall₂ T l1 l3 := by
  intro l1 l2 l3 h1
  induction h1 generalizing l3 with
  | nil =>
    intro h2
    cases h2
    exact List.Forall₂.nil
  | @cons a b t1 t2 hab htail ih =>
    intro h2
    cases h2 with
    | cons hbc h2t => exact List.Forall₂.cons (hcomp _ _ _ hab hbc) (ih h2t)

theorem sync_viewport_windows (world : World) (evs : List SyncEvent) :
    (sync_viewport world evs).windows = world.windows := by
  induction evs generalizing world with
  | nil => rfl
  | cons e rest ih =>
    show (sync_viewport (processEvent world e) rest).windows = world.windows
    rw [ih (processEvent world e), processEvent_windows]

theorem sync_forall₂ : ∀ (evs : List SyncEvent) (world : World),
    List.Forall₂ (syncCameraRel world evs) world.cameras
      (sync_viewport world evs).cameras := by
  intro evs
  induction evs with
  | nil =>
    intro world
    exact List.forall₂_same.mpr
      (fun c _ => ⟨⟨rfl, rfl, rfl, Or.inl rfl⟩, fun _ => rfl⟩)
  | cons e rest ih =>
    intro world
    have hstep := processEvent_step world e
    have hwnd : (processEvent world e).windows = world.windows :=
      processEvent_windows world e
    have hforget : List.Forall₂ (fun c c2 => c2.id = c.id ∧
        c2.camera.target = c.camera.target) world.cameras
        (processEvent world e).cameras :=
      hstep.imp (fun a b hab => ⟨hab.1.1, hab.1.2.2.1⟩)
    have hpid := pairedIds_invariant world (processEvent world e) hwnd hforget
    have hIH := ih (processEvent world e)
    have hIH2 : List.Forall₂ (fun c c2 => viewportOnly world.windows c c2 ∧
        ((∀ ev ∈ rest, c.id ∉ pairedIds world ev) → c2 = c))
        (processEvent world e).cameras
        (sync_viewport (processEvent world e) rest).cameras := by
      refine hIH.imp (fun a b h => ?_)
      obtain ⟨hv, hu⟩ := h
      constructor
      · rw [hwnd] at hv
        exact hv
      · intro hall
        exact hu (fun ev hev => by rw [hpid ev]; exact hall ev hev)
    show List.Forall₂ (syncCameraRel world (e :: rest)) world.cameras
      (sync_viewport (processEvent world e) rest).cameras
    refine forall₂_trans_compose ?_ hstep hIH2
    intro a b c hab hbc
    obtain ⟨⟨hid1, hfv1, ht1, hvp1⟩, hun1⟩ := hab
    obtain ⟨⟨hid2, hfv2, ht2, hvp2⟩, hun2⟩ := hbc
    refine ⟨⟨hid2.trans hid1, hfv2.trans hfv1, ht2.trans ht1, ?_⟩, ?_⟩
    · cases hvp2 with
      | inl h2 =>
        cases hvp1 with
        | inl h1 => exact Or.inl (h2.trans h1)
        | inr h1 =>
          obtain ⟨we, hm, he⟩ := h1
          exact Or.inr ⟨we, hm, h2.trans he⟩
      | inr h2 =>
        obtain ⟨we, hm, he⟩ := h2
        exact Or.inr ⟨we, hm, by rw [he, hfv1]⟩
    · intro hall
      have hba : b = a := hun1 (hall e (List.mem_cons_self e rest))
      have hca : c = b := hun2 (fun ev hev => by
        rw [hid1]
        exact hall ev (List.mem_cons_of_mem e hev))
      rw [hca, hba]

/-- C9: over a whole pass, the windows are untouched and every camera
keeps its id, its `FixedViewport` aspect ratio and its render target;
its viewport field is either untouched or overwritten with `some`
fitted rectangle (never set to `none`); and a camera that no signal of
the tick resolves into a pair is left completely unchanged. -/
theorem c9_pass_effect (world : World) (evs : List SyncEvent) :
    (sync_viewport world evs).windows = world.windows ∧
    List.Forall₂ (syncCameraRel world evs) world.cameras
      (sync_viewport world evs).cameras :=
  ⟨sync_viewport_windows world evs, sync_forall₂ evs world⟩

/-- C10: the sync pass is deterministic — equal entity state and equal
signal sequences produce equal final states (the pass is a pure function
of its inputs). -/
theorem c10_deterministic (w1 w2 : World) (e1 e2 : List SyncEvent)
    (hw : w1 = w2) (he : e1 = e2) :
    sync_viewport w1 e1 = sync_viewport w2 e2 := by
  rw [hw, he]

/-- Witness for C10 on `worldC5` with one window signal. -/
theorem c10_deterministic_witness :
    worldC5 = worldC5 ∧
    sync_viewport worldC5 [SyncEvent.window 1] =
      sync_viewport worldC5 [SyncEvent.window 1] :=
  ⟨rfl, c10_deterministic worldC5 worldC5 [SyncEvent.window 1]
    [SyncEvent.window 1] rfl rfl⟩
